/-
Verification of the learning-path backend (`app.py`): a shallow embedding
of the skill-gap analyzer, the course recommender, and the per-user session
state (path generation, progress updates, dashboard statistics), together
with theorems settling the documented behavioural claims.

Modelling conventions:
* Python strings are Lean `String`; `a in b` (substring test) is modelled by
  `pyIn`, i.e. contiguous occurrence in the character list.  `str.lower`,
  `str.strip` and `str.replace(" ", "-")` are modelled character-wise
  (`pyLower`, `pyStrip`, `pyHyphenate`).
* Python dict field access with a default (`d.get(k, v)`) is modelled by
  `Option` fields read with `Option.getD`.
* Python numbers are `Int` (levels, progress) and `ℚ` where true division
  or 1-decimal rounding occurs; Python's `round` (banker's rounding) is
  modelled exactly on `ℚ` by `pyRound`.
* The in-memory dicts keyed by `user_id` are association lists with
  Python-dict insertion semantics (`dictInsert`: overwrite in place, else
  append); the handlers are state-passing functions.
-/
import Mathlib

namespace LearnPath

/-- Test that `needle` starts `hay` (on character lists). -/
def startsWithChars : List Char → List Char → Bool
  | [], _ => true
  | _ :: _, [] => false
  | a :: as, b :: bs => (a == b) && startsWithChars as bs

/-- Test that `needle` occurs contiguously somewhere in `hay`. -/
def occursInChars (needle : List Char) : List Char → Bool
  | [] => startsWithChars needle []
  | b :: bs => startsWithChars needle (b :: bs) || occursInChars needle bs

/-- Python's `needle in hay` on strings: substring containment. -/
def pyIn (needle hay : String) : Bool :=
  occursInChars needle.data hay.data

/-- Python's `str.lower()` (character-wise, as in the source's ASCII data). -/
def pyLower (s : String) : String :=
  ⟨s.data.map Char.toLower⟩

/-- Python's `str.strip()`: drop leading and trailing whitespace. -/
def pyStrip (s : String) : String :=
  ⟨((s.data.dropWhile Char.isWhitespace).reverse.dropWhile Char.isWhitespace).reverse⟩

/-- Python's `str.replace(" ", "-")`: with a one-character pattern this is
character-wise replacement. -/
def pyHyphenate (s : String) : String :=
  ⟨s.data.map (fun c => if c == ' ' then '-' else c)⟩

/-- An assessed skill, one element of the `skills` array of an assessment. -/
structure AssessedSkill where
  name : String
  level : Int
deriving DecidableEq

/-- A skill gap as produced by `analyze_skill_gaps`. -/
structure SkillGap where
  name : String
  current_level : Int
  recommended_level : Int
  priority : String
deriving DecidableEq

/-- The fixed `domain_requirements` table of `analyze_skill_gaps`,
in source order (Python dicts iterate in insertion order). -/
def domain_requirements : List (String × List String) :=
  [("computer-science", ["Programming Fundamentals", "Data Structures", "Algorithms", "Software Engineering"]),
   ("data-science", ["Python", "Statistics", "Machine Learning", "Data Analysis"]),
   ("web-development", ["HTML", "CSS", "JavaScript", "React", "Node.js", "Database Design"]),
   ("mobile-development", ["Mobile App Design", "iOS Development", "Android Development", "UI/UX", "API Integration"]),
   ("cybersecurity", ["Network Security", "Ethical Hacking", "Cryptography", "Security Analysis"]),
   ("ai-ml", ["Python", "Machine Learning", "Deep Learning", "Neural Networks"]),
   ("business", ["Business Strategy", "Marketing", "Finance", "Management"]),
   ("design", ["UI/UX Design", "Graphic Design", "Design Tools", "User Research"]),
   ("marketing", ["Digital Marketing", "SEO", "Content Marketing", "Analytics"])]

/-- Normalization `target_domain.lower().strip().replace(" ", "-")`. -/
def normalizeDomain (target_domain : String) : String :=
  pyHyphenate (pyStrip (pyLower target_domain))

/-- The flexible domain-matching loop: first table entry whose key is a
substring of the normalized domain or vice versa; `[]` when none matches
(the Python code leaves `required_skills = []` in that case). -/
def matchedRequirements (normalized_domain : String) : List String :=
  match domain_requirements.find?
      (fun p => pyIn p.fst normalized_domain || pyIn normalized_domain p.fst) with
  | some p => p.snd
  | none => []

/-- The required-skill list `analyze_skill_gaps` ends up using: the matched
domain's list, or the `data-science` list when the match came up empty. -/
def requiredSkillsFor (target_domain : String) : List String :=
  let matched := matchedRequirements (normalizeDomain target_domain)
  if matched.isEmpty then
    ["Python", "Statistics", "Machine Learning", "Data Analysis"]
  else matched

/-- The inner `for assessed_skill in assessment_skills ... break` loop:
first assessed skill whose lowered name contains the lowered required
skill name. -/
def findMatch (skill : String) : List AssessedSkill → Option AssessedSkill
  | [] => none
  | a :: rest =>
    if pyIn (pyLower skill) (pyLower a.name) then some a else findMatch skill rest

/-- The outer `for skill in required_skills` loop of `analyze_skill_gaps`:
emit a gap for a matched skill of level ≤ 2, nothing for a matched skill of
level > 2, and a default gap when no assessed skill matches. -/
def gapsForSkills (assessment_skills : List AssessedSkill) : List String → List SkillGap
  | [] => []
  | skill :: rest =>
    match findMatch skill assessment_skills with
    | some a =>
      if a.level ≤ 2 then
        ⟨skill, a.level, 4, "High"⟩ :: gapsForSkills assessment_skills rest
      else
        gapsForSkills assessment_skills rest
    | none => ⟨skill, 0, 3, "High"⟩ :: gapsForSkills assessment_skills rest

/-- The function `analyze_skill_gaps(assessment_skills, target_domain)`. -/
def analyze_skill_gaps (assessment_skills : List AssessedSkill) (target_domain : String) : List SkillGap :=
  gapsForSkills assessment_skills (requiredSkillsFor target_domain)

/-- Claim-side description of what happens to one required skill
(written from the spec's wording, to be compared with the code). -/
def specGapFor (assessment_skills : List AssessedSkill) (skill : String) : Option SkillGap :=
  match assessment_skills.find? (fun a => pyIn (pyLower skill) (pyLower a.name)) with
  | some a =>
    if a.level ≤ 2 then
      some { name := skill, current_level := a.level, recommended_level := 4, priority := "High" }
    else none
  | none => some { name := skill, current_level := 0, recommended_level := 3, priority := "High" }

lemma findMatch_eq_find? (skill : String) (l : List AssessedSkill) :
    findMatch skill l = l.find? (fun a => pyIn (pyLower skill) (pyLower a.name)) := by
  induction l with
  | nil => rfl
  | cons a rest ih =>
    simp only [findMatch, List.find?]
    by_cases h : pyIn (pyLower skill) (pyLower a.name) = true
    · simp [h]
    · simp only [Bool.not_eq_true] at h
      simp [h, ih]

lemma gapsForSkills_eq_filterMap (assessment_skills : List AssessedSkill) (skills : List String) :
    gapsForSkills assessment_skills skills = skills.filterMap (specGapFor assessment_skills) := by
  induction skills with
  | nil => rfl
  | cons skill rest ih =>
    simp only [gapsForSkills, List.filterMap_cons, specGapFor, findMatch_eq_find?]
    cases h : assessment_skills.find? (fun a => pyIn (pyLower skill) (pyLower a.name)) with
    | none => simp [ih]
    | some a =>
      by_cases hl : a.level ≤ 2
      · simp [hl, ih]
      · simp [hl, ih]

/-- C1: for each required skill of the matched domain, in required-list
order: first case-insensitive-substring match among the assessed skills
wins; a match of level ≤ 2 yields a gap `{current_level = level,
recommended_level = 4, priority = High}`, a match of level > 2 yields no
gap, and no match yields `{current_level = 0, recommended_level = 3,
priority = High}`. -/
theorem analyze_skill_gaps_matches_spec (assessment_skills : List AssessedSkill)
    (target_domain : String) :
    analyze_skill_gaps assessment_skills target_domain =
      (requiredSkillsFor target_domain).filterMap (specGapFor assessment_skills) := by
  unfold analyze_skill_gaps
  exact gapsForSkills_eq_filterMap assessment_skills (requiredSkillsFor target_domain)

/-- C2: a target domain whose normalized form neither contains nor is
contained in any of the 9 known domain keys makes `analyze` fall back to
the data-science required-skill list. -/
theorem unknown_domain_falls_back_to_data_science (target_domain : String)
    (h : ∀ p ∈ domain_requirements,
      pyIn p.fst (normalizeDomain target_domain) = false ∧
      pyIn (normalizeDomain target_domain) p.fst = false) :
    requiredSkillsFor target_domain = ["Python", "Statistics", "Machine Learning", "Data Analysis"] ∧
    analyze_skill_gaps [] target_domain =
      gapsForSkills [] ["Python", "Statistics", "Machine Learning", "Data Analysis"] := by
  have hfind : domain_requirements.find?
      (fun p => pyIn p.fst (normalizeDomain target_domain) ||
        pyIn (normalizeDomain target_domain) p.fst) = none := by
    rw [List.find?_eq_none]
    intro p hp
    have := h p hp
    simp [this.1, this.2]
  have hreq : requiredSkillsFor target_domain =
      ["Python", "Statistics", "Machine Learning", "Data Analysis"] := by
    unfold requiredSkillsFor matchedRequirements
    rw [hfind]
    rfl
  exact ⟨hreq, by rw [analyze_skill_gaps, hreq]⟩

/-- Witness for C2 at the concrete domain `"basket weaving"`. -/
theorem unknown_domain_falls_back_witness :
    requiredSkillsFor ("basket weaving") = ["Python", "Statistics", "Machine Learning", "Data Analysis"] :=
  (unknown_domain_falls_back_to_data_science ("basket weaving") (by decide)).1

/-- C10: a target domain normalizing to the empty string matches the first
table entry (`computer-science`), because the empty string is a substring
of every key; the data-science fallback is not reached. -/
theorem empty_domain_matches_computer_science (target_domain : String)
    (h : normalizeDomain target_domain = "") (assessment_skills : List AssessedSkill) :
    requiredSkillsFor target_domain =
      ["Programming Fundamentals", "Data Structures", "Algorithms", "Software Engineering"] ∧
    analyze_skill_gaps assessment_skills target_domain =
      gapsForSkills assessment_skills
        ["Programming Fundamentals", "Data Structures", "Algorithms", "Software Engineering"] := by
  have hreq : requiredSkillsFor target_domain =
      ["Programming Fundamentals", "Data Structures", "Algorithms", "Software Engineering"] := by
    unfold requiredSkillsFor matchedRequirements
    rw [h]
    rfl
  exact ⟨hreq, by rw [analyze_skill_gaps, hreq]⟩

/-- Witness for C10 at the whitespace-only domain `"   "`. -/
theorem empty_domain_matches_witness :
    requiredSkillsFor ("   ") =
      ["Programming Fundamentals", "Data Structures", "Algorithms", "Software Engineering"] :=
  (empty_domain_matches_computer_science ("   ") (by decide) []).1

/-! ## Course recommender (`recommend_courses`) -/

/-- One row of the courses CSV as seen through `course.get(field, default)`:
each recognized field may be absent. `rating` is a number (ℚ); `pd.notna`
on it is modelled by the `Option` being `some`. -/
structure CourseRow where
  domain : Option String := none
  skills : Option String := none
  level : Option String := none
  format : Option String := none
  title : Option String := none
  provider : Option String := none
  duration : Option String := none
  rating : Option ℚ := none
  students : Option String := none
  description : Option String := none
deriving DecidableEq

/-- The courses table: its rows plus whether a `domain` column exists
(`'domain' in courses_df.columns`). -/
structure Catalog where
  hasDomainCol : Bool
  rows : List CourseRow
deriving DecidableEq

/-- The learner-profile fields `recommend_courses` reads via `dict.get`. -/
structure LearnerProfileView where
  currentDomain : Option String := none
  experienceLevel : Option String := none
  learningStyle : Option String := none
deriving DecidableEq

/-- One course recommendation as appended to the result list. -/
structure Recommendation where
  title : String
  provider : String
  level : String
  duration : String
  rating : ℚ
  students : String
  description : String
  score : Nat
deriving DecidableEq

/-- The domain filter: rows whose lowered `domain` value contains the
lowered target domain (`na=False`: a missing value never matches); absent
`domain` column or an empty filter result falls back to the whole table. -/
def candidateRows (target_domain : String) (cat : Catalog) : List CourseRow :=
  let domain_courses :=
    if cat.hasDomainCol then
      cat.rows.filter (fun r =>
        match r.domain with
        | some d => pyIn target_domain (pyLower d)
        | none => false)
    else cat.rows
  if domain_courses.isEmpty then cat.rows else domain_courses

/-- The per-row scoring loop body of `recommend_courses`, in source order:
`+3` per matching skill gap, then `+2` for an experience-level match, then
`+1` for a learning-style match. -/
def scoreRow (lp : LearnerProfileView) (skill_gaps : List SkillGap) (course : CourseRow) : Nat :=
  let course_skills := pyLower (course.skills.getD (""))
  let score := skill_gaps.foldl
    (fun s gap => if pyIn (pyLower gap.name) course_skills then s + 3 else s) 0
  let experience := pyLower (lp.experienceLevel.getD ("beginner"))
  let course_level := pyLower (course.level.getD ("beginner"))
  let score := if experience = course_level then score + 2 else score
  let learning_style := pyLower (lp.learningStyle.getD ("video"))
  let course_format := pyLower (course.format.getD ("video"))
  if pyIn learning_style course_format then score + 1 else score

/-- The recommendation record built from a scored row, with the source's
output defaults. -/
def rowToRec (course : CourseRow) (score : Nat) : Recommendation :=
  { title := course.title.getD ("Unknown Course")
    provider := course.provider.getD ("Unknown")
    level := course.level.getD ("Beginner")
    duration := course.duration.getD ("N/A")
    rating := course.rating.getD 0
    students := course.students.getD ("N/A")
    description := course.description.getD ("")
    score := score }

/-- The scoring loop over the candidate rows: keep a row only when its
score reaches the `score >= 1` floor. -/
def scoredRecs (lp : LearnerProfileView) (skill_gaps : List SkillGap) :
    List CourseRow → List Recommendation
  | [] => []
  | course :: rest =>
    let score := scoreRow lp skill_gaps course
    if 1 ≤ score then rowToRec course score :: scoredRecs lp skill_gaps rest
    else scoredRecs lp skill_gaps rest

/-- Stable insertion used to model Python's stable
`sort(key=score, reverse=True)`: a new element goes after every element of
strictly greater score and before the first of smaller-or-equal score,
so earlier ties stay first. -/
def insertRec (x : Recommendation) : List Recommendation → List Recommendation
  | [] => [x]
  | y :: ys => if x.score < y.score then y :: insertRec x ys else x :: y :: ys

/-- Stable descending-by-score sort (Python `list.sort` is stable). -/
def sortRecs : List Recommendation → List Recommendation
  | [] => []
  | x :: xs => insertRec x (sortRecs xs)

/-- The fixed `Guaranteed fallback if CSV fails` recommendation. -/
def fallbackRec : Recommendation :=
  { title := "Python for Data Science"
    provider := "Udemy"
    level := "Beginner"
    duration := "30 hours"
    rating := 4.6
    students := "100,000+"
    description := "Complete Python guide for Data Science"
    score := 5 }

/-- The function `recommend_courses(learner_profile, assessment_skills, skill_gaps)`;
the catalog (`courses_df`, a module global in the source) is passed
explicitly, `none` when loading failed. -/
def recommend_courses (lp : LearnerProfileView) (assessment_skills : List AssessedSkill)
    (skill_gaps : List SkillGap) (catalog : Option Catalog) : List Recommendation :=
  match catalog with
  | some cat =>
    if cat.rows.isEmpty then [fallbackRec]
    else
      let target_domain := pyLower (lp.currentDomain.getD (""))
      let recommendations := scoredRecs lp skill_gaps (candidateRows target_domain cat)
      let sorted := sortRecs recommendations
      if sorted.isEmpty then [fallbackRec] else sorted.take 10
  | none => [fallbackRec]

/-- The list `recommend_courses` sorts and truncates, with the fallback
substituted in the cases where the scoring loop is skipped or empty
(used to state sortedness/stability of the final output). -/
def scoredRecommendations (lp : LearnerProfileView) (skill_gaps : List SkillGap)
    (catalog : Option Catalog) : List Recommendation :=
  match catalog with
  | some cat =>
    if cat.rows.isEmpty then [fallbackRec]
    else
      let target_domain := pyLower (lp.currentDomain.getD (""))
      let recommendations := scoredRecs lp skill_gaps (candidateRows target_domain cat)
      if recommendations.isEmpty then [fallbackRec] else recommendations
  | none => [fallbackRec]

/-- Claim-side score formula: `3 ×` (number of skill gaps whose name is a
case-insensitive substring of the row's skills) `+ 2` for an exact
case-insensitive experience/level match `+ 1` for a learning-style
substring match on the format, all fields defaulted as documented. -/
def specScore (lp : LearnerProfileView) (skill_gaps : List SkillGap) (course : CourseRow) : Nat :=
  3 * skill_gaps.countP (fun gap => pyIn (pyLower gap.name) (pyLower (course.skills.getD ("")))) +
  (if pyLower (lp.experienceLevel.getD ("beginner")) = pyLower (course.level.getD ("beginner"))
    then 2 else 0) +
  (if pyIn (pyLower (lp.learningStyle.getD ("video"))) (pyLower (course.format.getD ("video")))
    then 1 else 0)

lemma foldl_score_count (p : SkillGap → Bool) :
    ∀ (l : List SkillGap) (n : Nat),
      l.foldl (fun s gap => if p gap then s + 3 else s) n = n + 3 * l.countP p := by
  intro l
  induction l with
  | nil => intro n; simp
  | cons g l ih =>
    intro n
    simp only [List.foldl_cons, List.countP_cons, ih]
    by_cases h : p g
    · simp only [h, if_true]
      omega
    · simp [h]

lemma scoreRow_eq_specScore (lp : LearnerProfileView) (skill_gaps : List SkillGap)
    (course : CourseRow) : scoreRow lp skill_gaps course = specScore lp skill_gaps course := by
  simp only [scoreRow, specScore, foldl_score_count]
  by_cases h2 : pyLower (lp.experienceLevel.getD ("beginner")) = pyLower (course.level.getD ("beginner")) <;>
    by_cases h1 : pyIn (pyLower (lp.learningStyle.getD ("video"))) (pyLower (course.format.getD ("video"))) <;>
      simp [h1, h2] <;> omega

/-- C3: a candidate row's score is `3 ×` (skill gaps matching its skills
field) `+ 2` for an experience-level match `+ 1` for a learning-style
match, and the row enters the recommendation list exactly when that score
is `≥ 1` (rows scoring 0 are dropped). -/
theorem scored_rows_match_spec_score (lp : LearnerProfileView) (skill_gaps : List SkillGap)
    (rows : List CourseRow) :
    scoredRecs lp skill_gaps rows =
      (rows.filter (fun r => decide (1 ≤ specScore lp skill_gaps r))).map
        (fun r => rowToRec r (specScore lp skill_gaps r)) := by
  induction rows with
  | nil => rfl
  | cons course rest ih =>
    simp only [scoredRecs, scoreRow_eq_specScore, List.filter_cons]
    by_cases h : 1 ≤ specScore lp skill_gaps course
    · simp [h, ih]
    · simp [h, ih]

lemma length_insertRec (x : Recommendation) (l : List Recommendation) :
    (insertRec x l).length = l.length + 1 := by
  induction l with
  | nil => rfl
  | cons y ys ih =>
    simp only [insertRec]
    by_cases h : x.score < y.score
    · simp [h, ih]
    · simp [h]

lemma length_sortRecs (l : List Recommendation) : (sortRecs l).length = l.length := by
  induction l with
  | nil => rfl
  | cons x xs ih => simp [sortRecs, length_insertRec, ih]

lemma mem_insertRec (z x : Recommendation) (l : List Recommendation) :
    z ∈ insertRec x l ↔ z = x ∨ z ∈ l := by
  induction l with
  | nil => simp [insertRec]
  | cons y ys ih =>
    simp only [insertRec]
    by_cases h : x.score < y.score
    · simp only [h, if_true, List.mem_cons, ih]
      tauto
    · simp only [h, if_false, List.mem_cons]

lemma pairwise_insertRec (x : Recommendation) (l : List Recommendation)
    (hl : l.Pairwise (fun a b => b.score ≤ a.score)) :
    (insertRec x l).Pairwise (fun a b => b.score ≤ a.score) := by
  induction l with
  | nil => simp [insertRec]
  | cons y ys ih =>
    rw [List.pairwise_cons] at hl
    simp only [insertRec]
    by_cases h : x.score < y.score
    · simp only [h, if_true]
      rw [List.pairwise_cons]
      constructor
      · intro z hz
        rcases (mem_insertRec z x ys).1 hz with hzx | hzy
        · exact hzx ▸ Nat.le_of_lt h
        · exact hl.1 z hzy
      · exact ih hl.2
    · simp only [h, if_false]
      rw [List.pairwise_cons]
      refine ⟨?_, List.pairwise_cons.2 hl⟩
      intro z hz
      rcases List.mem_cons.1 hz with hzy | hzys
      · rw [hzy]; omega
      · exact le_trans (hl.1 z hzys) (by omega)

lemma pairwise_sortRecs (l : List Recommendation) :
    (sortRecs l).Pairwise (fun a b => b.score ≤ a.score) := by
  induction l with
  | nil => simp [sortRecs]
  | cons x xs ih => exact pairwise_insertRec x (sortRecs xs) ih

lemma filter_insertRec (x : Recommendation) (l : List Recommendation) (s : Nat) :
    (insertRec x l).filter (fun r => r.score == s) =
      if x.score = s then x :: l.filter (fun r => r.score == s)
      else l.filter (fun r => r.score == s) := by
  induction l with
  | nil =>
    simp only [insertRec, List.filter]
    by_cases h : x.score = s
    · have hb : (x.score == s) = true := by simp [h]
      simp [h, hb]
    · have hb : (x.score == s) = false := by simp [h]
      simp [h, hb]
  | cons y ys ih =>
    simp only [insertRec]
    by_cases h : x.score < y.score
    · simp only [h, if_true, List.filter_cons]
      by_cases hy : y.score = s
      · have hx : ¬ x.score = s := by omega
        simp [hy, hx, ih]
      · simp [hy, ih]
    · simp only [h, if_false, List.filter_cons]
      by_cases hx : x.score = s
      · simp [hx]
      · simp [hx]

lemma filter_sortRecs (l : List Recommendation) (s : Nat) :
    (sortRecs l).filter (fun r => r.score == s) = l.filter (fun r => r.score == s) := by
  induction l with
  | nil => rfl
  | cons x xs ih =>
    simp only [sortRecs, filter_insertRec, List.filter_cons]
    by_cases h : x.score = s
    · simp [h, ih]
    · simp [h, ih]

lemma recommend_courses_eq_take_sort (lp : LearnerProfileView)
    (assessment_skills : List AssessedSkill) (skill_gaps : List SkillGap)
    (catalog : Option Catalog) :
    recommend_courses lp assessment_skills skill_gaps catalog =
      (sortRecs (scoredRecommendations lp skill_gaps catalog)).take 10 := by
  cases catalog with
  | none => rfl
  | some cat =>
    simp only [recommend_courses, scoredRecommendations]
    by_cases hrows : cat.rows.isEmpty
    · simp [hrows]; rfl
    · simp only [hrows, if_false]
      set recs := scoredRecs lp skill_gaps
        (candidateRows (pyLower (lp.currentDomain.getD (""))) cat) with hrecs
      by_cases hempty : recs.isEmpty
      · have : recs = [] := List.isEmpty_iff.1 hempty
        rw [this]
        rfl
      · have hsort : ¬ (sortRecs recs).isEmpty := by
          rw [List.isEmpty_iff] at hempty ⊢
          intro hc
          apply hempty
          have := length_sortRecs recs
          rw [hc] at this
          exact List.eq_nil_of_length_eq_zero this.symm
        simp [hempty, hsort]

/-- C4: `recommend` never returns empty: with an absent or empty catalog,
and also when the scoring loop keeps no row of a non-empty catalog, it
returns exactly the fixed fallback recommendation, whose score is 5. -/
theorem recommend_nonempty_and_fallback (lp : LearnerProfileView)
    (assessment_skills : List AssessedSkill) (skill_gaps : List SkillGap)
    (catalog : Option Catalog) :
    recommend_courses lp assessment_skills skill_gaps catalog ≠ [] ∧
    fallbackRec.score = 5 ∧
    (catalog = none →
      recommend_courses lp assessment_skills skill_gaps catalog = [fallbackRec]) ∧
    (∀ cat, catalog = some cat → cat.rows = [] →
      recommend_courses lp assessment_skills skill_gaps catalog = [fallbackRec]) ∧
    (∀ cat, catalog = some cat →
      scoredRecs lp skill_gaps (candidateRows (pyLower (lp.currentDomain.getD (""))) cat) = [] →
      recommend_courses lp assessment_skills skill_gaps catalog = [fallbackRec]) := by
  refine ⟨?_, rfl, ?_, ?_, ?_⟩
  · rw [recommend_courses_eq_take_sort]
    intro hc
    have hlen := congrArg List.length hc
    rw [List.length_take, length_sortRecs] at hlen
    have hne : scoredRecommendations lp skill_gaps catalog ≠ [] := by
      cases catalog with
      | none => simp [scoredRecommendations]
      | some cat =>
        simp only [scoredRecommendations]
        by_cases hrows : cat.rows.isEmpty
        · simp [hrows]
        · simp only [hrows, if_false]
          by_cases hempty : (scoredRecs lp skill_gaps
              (candidateRows (pyLower (lp.currentDomain.getD (""))) cat)).isEmpty
          · simp [hempty]
          · simpa [hempty] using List.isEmpty_iff.not.1 hempty
    have hpos := List.length_pos.2 hne
    simp only [List.length_nil] at hlen
    omega
  · intro h
    rw [h]
    rfl
  · intro cat hcat hrows
    rw [hcat]
    simp [recommend_courses, hrows]
  · intro cat hcat hscored
    rw [hcat]
    simp only [recommend_courses]
    by_cases hrows : cat.rows.isEmpty
    · simp [hrows]
    · simp only [hrows, if_false]
      rw [hscored]
      rfl

/-- Witness for C4: an absent catalog yields exactly the fallback. -/
theorem recommend_fallback_witness :
    recommend_courses {} [] [] none = [fallbackRec] :=
  (recommend_nonempty_and_fallback {} [] [] none).2.2.1 rfl

/-- C5: the recommendation list has length ≤ 10, is sorted non-increasing
by score, and equal-score ties keep the original (catalog-order) relative
order: for each score the output's entries of that score are an initial
segment of the pre-sort list's entries of that score. -/
theorem recommend_sorted_bounded_stable (lp : LearnerProfileView)
    (assessment_skills : List AssessedSkill) (skill_gaps : List SkillGap)
    (catalog : Option Catalog) :
    (recommend_courses lp assessment_skills skill_gaps catalog).length ≤ 10 ∧
    (recommend_courses lp assessment_skills skill_gaps catalog).Pairwise
      (fun a b => b.score ≤ a.score) ∧
    ∀ s : Nat, ∃ t,
      (scoredRecommendations lp skill_gaps catalog).filter (fun r => r.score == s) =
        (recommend_courses lp assessment_skills skill_gaps catalog).filter
          (fun r => r.score == s) ++ t := by
  rw [recommend_courses_eq_take_sort]
  refine ⟨?_, ?_, ?_⟩
  · rw [List.length_take]
    exact min_le_left _ _
  · exact (pairwise_sortRecs _).sublist (List.take_sublist _ _)
  · intro s
    refine ⟨((sortRecs (scoredRecommendations lp skill_gaps catalog)).drop 10).filter
      (fun r => r.score == s), ?_⟩
    rw [← List.filter_append, List.take_append_drop, filter_sortRecs]

/-! ## Session store and request handlers -/

/-- The 8 required registration fields (all validated present by
`register_learner`). -/
structure RegistrationData where
  fullName : String
  age : Int
  educationLevel : String
  currentDomain : String
  careerGoal : String
  experienceLevel : String
  learningStyle : String
  weeklyStudyHours : Int
deriving DecidableEq

/-- A stored learner profile: `{'userId': ..., **data, 'registeredAt': ...}`. -/
structure StoredProfile where
  userId : String
  data : RegistrationData
  registeredAt : String
deriving DecidableEq

/-- Python-dict assignment on an association list: overwrite in place when
the key exists, else append (dicts preserve insertion order). -/
def dictInsert {α : Type} (k : String) (v : α) : List (String × α) → List (String × α)
  | [] => [(k, v)]
  | (k', v') :: rest => if k' = k then (k, v) :: rest else (k', v') :: dictInsert k v rest

/-- Python-dict lookup: the value stored at `k`, if any. -/
def dictGet {α : Type} (k : String) : List (String × α) → Option α
  | [] => none
  | (k', v) :: rest => if k' = k then some v else dictGet k rest

/-- Id minting `user_id = f"user_{datetime.now().strftime('%Y%m%d%H%M%S')}"`: the
minted id is the second-resolution timestamp with a fixed `user_` prepended. -/
def mint_user_id (now : String) : String :=
  "user_" ++ now

/-- Handler `register_learner` after validation: mint the id from the current
timestamp and store the profile; returns the new id and the updated
`learner_profiles` table. -/
def register_learner (now : String) (data : RegistrationData)
    (learner_profiles : List (String × StoredProfile)) :
    String × List (String × StoredProfile) :=
  let user_id := mint_user_id now
  (user_id,
    dictInsert user_id { userId := user_id, data := data, registeredAt := now } learner_profiles)

/-- One recommended-skill entry of a learning path. -/
structure RecommendedSkill where
  name : String
  description : String
  level : String
  priority : String
deriving DecidableEq

/-- A generated learning path. -/
structure LearningPath where
  userId : String
  generatedAt : String
  skills : List RecommendedSkill
  courses : List Recommendation
  totalSkills : Nat
  totalCourses : Nat
  skillGaps : List SkillGap
deriving DecidableEq

/-- A skill entry of a progress record. -/
structure SkillProgress where
  name : String
  progress : Int
  level : String
deriving DecidableEq

/-- A course entry of a progress record. -/
structure CourseProgress where
  title : String
  provider : String
  progress : Int
  status : String
deriving DecidableEq

/-- A per-user progress record (`progress_data[user_id]`). -/
structure ProgressRecord where
  skills : List SkillProgress
  courses : List CourseProgress
deriving DecidableEq

/-- The slice of server state owned by one user id: its entries in
`learning_paths` and `progress_data`. -/
structure UserState where
  learning_path : Option LearningPath
  progress : Option ProgressRecord
deriving DecidableEq

/-- The recommended-skill projection of a gap built by
`generate_learning_path`. -/
def recommendedSkillOfGap (gap : SkillGap) : RecommendedSkill :=
  { name := gap.name
    description := "Develop " ++ gap.name ++ " skills to reach level " ++ toString gap.recommended_level
    level :=
      if gap.current_level = 0 then ("Beginner")
      else if gap.current_level ≤ 2 then ("Intermediate")
      else ("Advanced")
    priority := gap.priority }

/-- Handler `generate_learning_path` after validation, for one user: run the
analyzer and the recommender, overwrite `learning_paths[user_id]`, and
initialize `progress_data[user_id]` only when absent. -/
def generate_learning_path (profile : StoredProfile) (assessment_skills : List AssessedSkill)
    (catalog : Option Catalog) (user_id now : String) (st : UserState) : UserState :=
  let skill_gaps := analyze_skill_gaps assessment_skills profile.data.currentDomain
  let recommended_skills := skill_gaps.map recommendedSkillOfGap
  let recommended_courses := recommend_courses
    { currentDomain := some profile.data.currentDomain
      experienceLevel := some profile.data.experienceLevel
      learningStyle := some profile.data.learningStyle }
    assessment_skills skill_gaps catalog
  let learning_path : LearningPath :=
    { userId := user_id
      generatedAt := now
      skills := recommended_skills
      courses := recommended_courses
      totalSkills := recommended_skills.length
      totalCourses := recommended_courses.length
      skillGaps := skill_gaps }
  { learning_path := some learning_path
    progress :=
      match st.progress with
      | some p => some p
      | none => some
        { skills := recommended_skills.map
            (fun skill => { name := skill.name, progress := 0, level := skill.level })
          courses := recommended_courses.map
            (fun course => { title := course.title, provider := course.provider,
                             progress := 0, status := "not-started" }) } }

/-- One entry of the `skillProgress` array of an update request. -/
structure SkillUpdate where
  name : String
  progress : Int
deriving DecidableEq

/-- One entry of the `courseProgress` array of an update request. -/
structure CourseUpdate where
  title : String
  progress : Int
deriving DecidableEq

/-- The inner `for skill in progress_data[...]['skills'] ... break` loop:
overwrite the progress of the first stored skill with the supplied name. -/
def updateOneSkill (u : SkillUpdate) : List SkillProgress → List SkillProgress
  | [] => []
  | sp :: rest =>
    if sp.name = u.name then { sp with progress := u.progress } :: rest
    else sp :: updateOneSkill u rest

/-- The inner `for course in progress_data[...]['courses'] ... break` loop:
overwrite the progress of the first stored course with the supplied title
and derive its status (`100 → completed`, `> 0 → in-progress`, otherwise
left unchanged). -/
def updateOneCourse (u : CourseUpdate) : List CourseProgress → List CourseProgress
  | [] => []
  | c :: rest =>
    if c.title = u.title then
      { c with
        progress := u.progress
        status :=
          if u.progress = 100 then ("completed")
          else if 0 < u.progress then ("in-progress")
          else c.status } :: rest
    else c :: updateOneCourse u rest

/-- Handler `update_progress` after validation, for one user's progress record:
apply each supplied skill update then each supplied course update, in
order. Absent `skillProgress`/`courseProgress` keys are empty lists. -/
def update_progress (skill_updates : List SkillUpdate) (course_updates : List CourseUpdate)
    (pr : ProgressRecord) : ProgressRecord :=
  { skills := skill_updates.foldl (fun l u => updateOneSkill u l) pr.skills
    courses := course_updates.foldl (fun l u => updateOneCourse u l) pr.courses }

/-- Round-half-to-even on ℚ, the behaviour of Python's `round`. -/
def pyRound (x : ℚ) : ℤ :=
  let f := ⌊x⌋
  let r := x - f
  if r < 1/2 then f
  else if 1/2 < r then f + 1
  else if f % 2 = 0 then f else f + 1

/-- Python's `round(x, 1)`: round to one decimal place. -/
def round1 (x : ℚ) : ℚ :=
  (pyRound (10 * x) : ℚ) / 10

/-- The dashboard numbers derived by `get_dashboard_data`. -/
structure DashboardStats where
  totalCourses : Nat
  completedCourses : Nat
  inProgressCourses : Nat
  overallProgress : ℚ
  totalSkills : Nat
  masteredSkills : Nat
  averageSkillLevel : ℚ
  hoursCompleted : ℚ
deriving DecidableEq

/-- The fixed `level_values` map with its default
(`{'Beginner': 1, 'Intermediate': 2, 'Advanced': 3}.get(lvl, 1)`). -/
def level_values (lvl : String) : ℚ :=
  if lvl = "Beginner" then 1
  else if lvl = "Intermediate" then 2
  else if lvl = "Advanced" then 3
  else 1

/-- Handler `get_dashboard_data` statistics for one user's progress record (an
unknown progress entry reads as `{'skills': [], 'courses': []}` upstream,
i.e. an empty record). -/
def get_dashboard_data (up : ProgressRecord) : DashboardStats :=
  let total_courses := up.courses.length
  let completed_courses := (up.courses.filter (fun c => c.progress == 100)).length
  let in_progress_courses :=
    (up.courses.filter (fun c => decide (0 < c.progress) && decide (c.progress < 100))).length
  let overall_progress : ℚ :=
    if 0 < total_courses then
      round1 (((up.courses.foldl (fun acc c => acc + c.progress) 0 : Int) : ℚ) / total_courses)
    else 0
  let total_skills := up.skills.length
  let mastered_skills := (up.skills.filter (fun s => decide (80 ≤ s.progress))).length
  let avg_level : ℚ :=
    if 0 < total_skills then
      round1 ((up.skills.foldl (fun acc s => acc + level_values s.level) 0) / total_skills)
    else 0
  let hours_completed :=
    round1 (up.courses.foldl (fun acc c => acc + (c.progress : ℚ) / 100 * 40) 0)
  { totalCourses := total_courses
    completedCourses := completed_courses
    inProgressCourses := in_progress_courses
    overallProgress := overall_progress
    totalSkills := total_skills
    masteredSkills := mastered_skills
    averageSkillLevel := avg_level
    hoursCompleted := hours_completed }

/-! ## Theorems about the handlers -/

/-- C6: regeneration overwrites the learning path (the new path does not
depend on the prior per-user state) but leaves an existing progress record
exactly unchanged; a progress record is initialized only when absent, with
every progress value 0 and every course status `not-started`. -/
theorem regenerate_preserves_progress (profile : StoredProfile)
    (assessment_skills : List AssessedSkill) (catalog : Option Catalog)
    (user_id now : String) (st : UserState) :
    (∀ pr, st.progress = some pr →
      (generate_learning_path profile assessment_skills catalog user_id now st).progress = some pr) ∧
    (generate_learning_path profile assessment_skills catalog user_id now st).learning_path =
      (generate_learning_path profile assessment_skills catalog user_id now
        ⟨none, none⟩).learning_path ∧
    (generate_learning_path profile assessment_skills catalog user_id now st).learning_path ≠
      none ∧
    (st.progress = none → ∃ pr,
      (generate_learning_path profile assessment_skills catalog user_id now st).progress =
        some pr ∧
      (∀ sp ∈ pr.skills, sp.progress = 0) ∧
      (∀ cp ∈ pr.courses, cp.progress = 0 ∧ cp.status = "not-started")) := by
  refine ⟨?_, rfl, by simp [generate_learning_path], ?_⟩
  · intro pr h
    simp [generate_learning_path, h]
  · intro h
    simp only [generate_learning_path, h]
    refine ⟨_, rfl, ?_, ?_⟩
    · intro sp hsp
      rcases List.mem_map.1 hsp with ⟨skill, _, hmk⟩
      rw [← hmk]
    · intro cp hcp
      rcases List.mem_map.1 hcp with ⟨course, _, hmk⟩
      rw [← hmk]
      exact ⟨rfl, rfl⟩

/-- Witness for C6: a later `generate_learning_path` call leaves a concrete
existing progress record unchanged. -/
theorem regenerate_preserves_progress_witness :
    (generate_learning_path
        ⟨"user_x", ⟨"A", 20, "BSc", "data-science", "G", "beginner", "video", 5⟩, "t0"⟩
        [] none ("user_x") ("t1")
        ⟨none, some ⟨[], [⟨"Course A", "Prov", 50, "in-progress"⟩]⟩⟩).progress =
      some ⟨[], [⟨"Course A", "Prov", 50, "in-progress"⟩]⟩ :=
  (regenerate_preserves_progress
    ⟨"user_x", ⟨"A", 20, "BSc", "data-science", "G", "beginner", "video", 5⟩, "t0"⟩
    [] none ("user_x") ("t1")
    ⟨none, some ⟨[], [⟨"Course A", "Prov", 50, "in-progress"⟩]⟩⟩).1 _ rfl

lemma updateOneCourse_no_match (u : CourseUpdate) (cs : List CourseProgress)
    (h : ∀ c ∈ cs, c.title ≠ u.title) : updateOneCourse u cs = cs := by
  induction cs with
  | nil => rfl
  | cons c rest ih =>
    have hc : c.title ≠ u.title := h c (List.mem_cons_self c rest)
    simp only [updateOneCourse, hc, if_false]
    rw [ih (fun c' hc' => h c' (List.mem_cons_of_mem c hc'))]

lemma updateOneSkill_no_match (u : SkillUpdate) (sps : List SkillProgress)
    (h : ∀ sp ∈ sps, sp.name ≠ u.name) : updateOneSkill u sps = sps := by
  induction sps with
  | nil => rfl
  | cons sp rest ih =>
    have hs : sp.name ≠ u.name := h sp (List.mem_cons_self sp rest)
    simp only [updateOneSkill, hs, if_false]
    rw [ih (fun sp' hs' => h sp' (List.mem_cons_of_mem sp hs'))]

lemma updateOneCourse_append (u : CourseUpdate) (pre rest : List CourseProgress)
    (h : ∀ c ∈ pre, c.title ≠ u.title) :
    updateOneCourse u (pre ++ rest) = pre ++ updateOneCourse u rest := by
  induction pre with
  | nil => rfl
  | cons c pre' ih =>
    have hc : c.title ≠ u.title := h c (List.mem_cons_self c pre')
    simp only [List.cons_append, updateOneCourse, hc, if_false]
    rw [show pre'.append rest = pre' ++ rest from rfl,
      ih (fun c' hc' => h c' (List.mem_cons_of_mem c hc'))]

/-- C7: a supplied course entry updates the first stored course with the
same title, setting its progress to the supplied value and its status to
`completed` at 100, `in-progress` strictly between 0 and 100, and leaving
it unchanged at 0; an entry matching no stored course (or, for skills, no
stored skill) changes nothing. -/
theorem update_progress_course_semantics (u : CourseUpdate) (cs : List CourseProgress) :
    (∀ pr : ProgressRecord, update_progress [] [u] pr =
      { skills := pr.skills, courses := updateOneCourse u pr.courses }) ∧
    ((∀ c ∈ cs, c.title ≠ u.title) → updateOneCourse u cs = cs) ∧
    (∀ (su : SkillUpdate) (sps : List SkillProgress),
      (∀ sp ∈ sps, sp.name ≠ su.name) → updateOneSkill su sps = sps) ∧
    (∀ pre c post, cs = pre ++ c :: post → (∀ c' ∈ pre, c'.title ≠ u.title) →
      c.title = u.title →
      ∃ st, updateOneCourse u cs =
          pre ++ { c with progress := u.progress, status := st } :: post ∧
        (u.progress = 100 → st = "completed") ∧
        (0 < u.progress → u.progress < 100 → st = "in-progress") ∧
        (u.progress = 0 → st = c.status)) := by
  refine ⟨fun pr => rfl, updateOneCourse_no_match u cs, updateOneSkill_no_match, ?_⟩
  intro pre c post hcs hpre hc
  refine ⟨if u.progress = 100 then ("completed")
          else if 0 < u.progress then ("in-progress") else c.status, ?_, ?_, ?_, ?_⟩
  · rw [hcs, updateOneCourse_append u pre (c :: post) hpre]
    simp only [updateOneCourse, hc, if_true]
  · intro h100
    simp [h100]
  · intro hpos hlt
    have : ¬ u.progress = 100 := by omega
    simp [this, hpos]
  · intro h0
    have h1 : ¬ u.progress = 100 := by omega
    have h2 : ¬ 0 < u.progress := by omega
    simp [h1, h2]

/-- Witness for C7: updating the single stored course to progress 100. -/
theorem update_progress_course_witness :
    ∃ st, updateOneCourse ⟨"Course A", (100 : Int)⟩
        [⟨"Course A", "Prov", 0, "not-started"⟩] =
        [] ++ { (⟨"Course A", "Prov", 0, "not-started"⟩ : CourseProgress) with
          progress := (100 : Int), status := st } :: [] ∧
      ((100 : Int) = 100 → st = "completed") ∧
      ((0 : Int) < 100 → (100 : Int) < 100 → st = "in-progress") ∧
      ((100 : Int) = 0 → st = (⟨"Course A", "Prov", 0, "not-started"⟩ : CourseProgress).status) :=
  (update_progress_course_semantics ⟨"Course A", 100⟩
    [⟨"Course A", "Prov", 0, "not-started"⟩]).2.2.2
    [] ⟨"Course A", "Prov", 0, "not-started"⟩ [] rfl (by simp) rfl

lemma foldl_add_map {α M : Type} [AddCommMonoid M] (f : α → M) :
    ∀ (l : List α) (n : M), l.foldl (fun acc c => acc + f c) n = n + (l.map f).sum := by
  intro l
  induction l with
  | nil => intro n; simp
  | cons a l ih =>
    intro n
    simp only [List.foldl_cons, List.map_cons, List.sum_cons, ih]
    rw [add_assoc]

/-- C8: the dashboard's overall progress is the mean of the stored course
progress values rounded to one decimal (0 with no courses), the
completed/in-progress counts are exactly the courses at progress 100 and
strictly between 0 and 100, and hours completed is
`Σ progress/100 × 40` rounded to one decimal. -/
theorem dashboard_statistics_spec (up : ProgressRecord) :
    (get_dashboard_data up).overallProgress =
      (if up.courses = [] then 0
       else round1
         ((((up.courses.map (fun c => c.progress)).sum : Int) : ℚ) / up.courses.length)) ∧
    (get_dashboard_data up).completedCourses =
      up.courses.countP (fun c => c.progress == 100) ∧
    (get_dashboard_data up).inProgressCourses =
      up.courses.countP (fun c => decide (0 < c.progress ∧ c.progress < 100)) ∧
    (get_dashboard_data up).hoursCompleted =
      round1 ((up.courses.map (fun c => (c.progress : ℚ) / 100 * 40)).sum) := by
  refine ⟨?_, ?_, ?_, ?_⟩
  · simp only [get_dashboard_data]
    by_cases h : up.courses = []
    · simp [h]
    · have hlen : 0 < up.courses.length := List.length_pos.2 h
      simp only [hlen, if_true, h, if_false]
      rw [foldl_add_map (fun c => c.progress) up.courses 0, zero_add]
  · simp only [get_dashboard_data]
    rw [List.countP_eq_length_filter]
  · simp only [get_dashboard_data]
    rw [List.countP_eq_length_filter]
    have hptwise : ∀ c ∈ up.courses,
        (decide (0 < c.progress) && decide (c.progress < 100)) =
          decide (0 < c.progress ∧ c.progress < 100) := by
      intro c _
      by_cases h1 : 0 < c.progress <;> by_cases h2 : c.progress < 100 <;> simp [h1, h2]
    rw [List.filter_congr hptwise]
  · simp only [get_dashboard_data]
    rw [foldl_add_map (fun c => (c.progress : ℚ) / 100 * 40) up.courses 0, zero_add]

lemma mint_user_id_injective (t1 t2 : String) (h : mint_user_id t1 = mint_user_id t2) :
    t1 = t2 := by
  unfold mint_user_id at h
  have hd := congrArg String.data h
  rw [String.data_append, String.data_append] at hd
  exact String.ext (List.append_cancel_left hd)

lemma dictGet_dictInsert_self {α : Type} (k : String) (v : α) (l : List (String × α)) :
    dictGet k (dictInsert k v l) = some v := by
  induction l with
  | nil => simp [dictInsert, dictGet]
  | cons p rest ih =>
    obtain ⟨k', v'⟩ := p
    simp only [dictInsert]
    by_cases h : k' = k
    · simp [dictGet, h]
    · simp [dictGet, h, ih]

lemma dictGet_dictInsert_ne {α : Type} (k k' : String) (v : α) (l : List (String × α))
    (h : k' ≠ k) : dictGet k (dictInsert k' v l) = dictGet k l := by
  induction l with
  | nil => simp [dictInsert, dictGet, h]
  | cons p rest ih =>
    obtain ⟨k'', v''⟩ := p
    simp only [dictInsert]
    by_cases h2 : k'' = k'
    · rw [h2]
      simp [dictGet, h]
    · simp only [h2, if_false, dictGet]
      by_cases h3 : k'' = k
      · simp [h3]
      · simp [h3, ih]

/-- C9 (amended): registrations at distinct second-resolution timestamps
mint distinct userIds, and the later registration leaves the earlier
profile stored; both profiles are retrievable afterwards. -/
theorem register_distinct_timestamps_distinct_users
    (learner_profiles : List (String × StoredProfile)) (t1 t2 : String)
    (d1 d2 : RegistrationData) (h : t1 ≠ t2) :
    (register_learner t1 d1 learner_profiles).1 ≠
      (register_learner t2 d2 (register_learner t1 d1 learner_profiles).2).1 ∧
    dictGet (register_learner t1 d1 learner_profiles).1
        (register_learner t2 d2 (register_learner t1 d1 learner_profiles).2).2 =
      some { userId := mint_user_id t1, data := d1, registeredAt := t1 } ∧
    dictGet (register_learner t2 d2 (register_learner t1 d1 learner_profiles).2).1
        (register_learner t2 d2 (register_learner t1 d1 learner_profiles).2).2 =
      some { userId := mint_user_id t2, data := d2, registeredAt := t2 } := by
  have hne : mint_user_id t1 ≠ mint_user_id t2 :=
    fun hc => h (mint_user_id_injective t1 t2 hc)
  refine ⟨hne, ?_, ?_⟩
  · simp only [register_learner]
    rw [dictGet_dictInsert_ne _ _ _ _ (Ne.symm hne), dictGet_dictInsert_self]
  · simp only [register_learner]
    rw [dictGet_dictInsert_self]

/-- Witness for the amended C9 at two concrete consecutive timestamps. -/
theorem register_distinct_timestamps_witness :
    (register_learner ("20240101120000")
        ⟨"Alice", 22, "BSc", "data science", "DS Engineer", "beginner", "video", 10⟩ []).1 ≠
      (register_learner ("20240101120001")
        ⟨"Bob", 30, "MSc", "web development", "Frontend", "advanced", "reading", 5⟩
        (register_learner ("20240101120000")
          ⟨"Alice", 22, "BSc", "data science", "DS Engineer", "beginner", "video", 10⟩ []).2).1 :=
  (register_distinct_timestamps_distinct_users []
    "20240101120000" "20240101120001"
    ⟨"Alice", 22, "BSc", "data science", "DS Engineer", "beginner", "video", 10⟩
    ⟨"Bob", 30, "MSc", "web development", "Frontend", "advanced", "reading", 5⟩
    (by decide)).1

/-- C9 (counterexample): two successful registrations within the same
second mint the same userId, and the second overwrites the first stored
profile (the store ends up with the second profile only). -/
theorem register_same_second_collision :
    (register_learner ("20240101120000")
        ⟨"Alice", 22, "BSc", "data science", "DS Engineer", "beginner", "video", 10⟩ []).1 =
      (register_learner ("20240101120000")
        ⟨"Bob", 30, "MSc", "web development", "Frontend", "advanced", "reading", 5⟩
        (register_learner ("20240101120000")
          ⟨"Alice", 22, "BSc", "data science", "DS Engineer", "beginner", "video", 10⟩ []).2).1 ∧
    (register_learner ("20240101120000")
        ⟨"Bob", 30, "MSc", "web development", "Frontend", "advanced", "reading", 5⟩
        (register_learner ("20240101120000")
          ⟨"Alice", 22, "BSc", "data science", "DS Engineer", "beginner", "video", 10⟩ []).2).2 =
      [("user_20240101120000",
        { userId := "user_20240101120000"
          data := ⟨"Bob", 30, "MSc", "web development", "Frontend", "advanced", "reading", 5⟩
          registeredAt := "20240101120000" })] := by
  constructor
  · rfl
  · rfl

end LearnPath
